import Mathlib

/-!
# WebServer: asynchronous request dispatch and JSON endpoints

A shallow embedding of `components/webserver/src/WebServer.cpp` and
`components/webserver/include/WebServer.h`.

* The FreeRTOS counting semaphore `worker_ready_count` (the admission gate) and the
  queue `async_req_queue` (the handoff channel) are explicit state. A handle that is
  `nullptr` in the program is `none` here.
* Request handles (`httpd_req_t*`) and handler function pointers are natural numbers.
* Calls made on the HTTP server, the gate, the queue and the handlers are recorded in
  an event trace, and so is the `ESP_LOGE` line of the worker loop. Other log output
  is not recorded.
* A worker task is a small state machine over the loop of `async_req_worker_task`.
-/

namespace WebServer

/-! ## Status codes and constants -/

/-- The type `esp_err_t` of ESP-IDF. -/
abbrev esp_err_t := Int

/-- The value `ESP_OK` of ESP-IDF. -/
def ESP_OK : esp_err_t := 0

/-- The value `ESP_FAIL` of ESP-IDF. -/
def ESP_FAIL : esp_err_t := -1

/-- The value `ESP_ERR_NO_MEM` of ESP-IDF, one of the errors of
`httpd_req_async_handler_begin`. -/
def ESP_ERR_NO_MEM : esp_err_t := 0x101

/-- The constant `MAX_ASYNC_REQUESTS` of `WebServer.h`, line 37. -/
def MAX_ASYNC_REQUESTS : Nat := 5

/-! ## FreeRTOS primitives -/

/-- A FreeRTOS counting semaphore: its maximum count and its current count. -/
structure Semaphore where
  uxMaxCount : Nat
  uxCount : Nat
deriving DecidableEq, Repr

/-- The call `xSemaphoreCreateCounting(uxMaxCount, uxInitialCount)`; the result is
`none` (a null handle) when the kernel cannot allocate the semaphore. -/
def xSemaphoreCreateCounting (uxMaxCount uxInitialCount : Nat) (allocated : Bool) :
    Option Semaphore :=
  if allocated then some ⟨uxMaxCount, uxInitialCount⟩ else none

/-- The call `xSemaphoreGive`: the count goes up by one unless it is at its maximum,
in which case the call returns `pdFALSE` and the count stays. -/
def xSemaphoreGive (sem : Semaphore) : Bool × Semaphore :=
  if sem.uxCount < sem.uxMaxCount then (true, ⟨sem.uxMaxCount, sem.uxCount + 1⟩)
  else (false, sem)

/-- The call `xSemaphoreTake(sem, 0)`: with a block time of zero the call returns at
once, `pdTRUE` and one token fewer when the count is positive, `pdFALSE` otherwise. -/
def xSemaphoreTake (sem : Semaphore) : Bool × Semaphore :=
  if 0 < sem.uxCount then (true, ⟨sem.uxMaxCount, sem.uxCount - 1⟩)
  else (false, sem)

/-- The struct `httpd_async_req_t` of `WebServer.h`, lines 41-44. -/
structure httpd_async_req_t where
  req : Nat
  handler : Nat
deriving DecidableEq, Repr

/-- A FreeRTOS queue of `httpd_async_req_t`: its length (capacity) and its content,
oldest item first. -/
structure Queue where
  uxQueueLength : Nat
  items : List httpd_async_req_t
deriving DecidableEq, Repr

/-- The call `xQueueCreate(uxQueueLength, sizeof(httpd_async_req_t))`; `none` is the
null handle. -/
def xQueueCreate (uxQueueLength : Nat) (allocated : Bool) : Option Queue :=
  if allocated then some ⟨uxQueueLength, []⟩ else none

/-- The call `xQueueSend(q, &item, ticks)` as one step: the item is appended when the
queue has room; a full queue that stays full for the whole block time gives
`pdFALSE`. A queue that gets room during the block time is the interleaving in which
the receive comes first. -/
def xQueueSend (q : Queue) (item : httpd_async_req_t) : Bool × Queue :=
  if q.items.length < q.uxQueueLength then (true, ⟨q.uxQueueLength, q.items ++ [item]⟩)
  else (false, q)

/-- The call `xQueueReceive(q, &item, portMAX_DELAY)`: it returns once the queue holds
an item; `none` means the caller is still blocked. -/
def xQueueReceive (q : Queue) : Option (httpd_async_req_t × Queue) :=
  match q.items with
  | [] => none
  | item :: rest => some (item, ⟨q.uxQueueLength, rest⟩)

/-! ## State of the dispatch subsystem -/

/-- Where a worker task stands in the loop of `async_req_worker_task`. -/
inductive Worker where
  /-- The call `xTaskCreate` failed: the slot of `worker_handles` holds no task. -/
  | absent
  /-- At line 111, about to call `xSemaphoreGive`. -/
  | announcing
  /-- At line 114, inside `xQueueReceive`. -/
  | waiting
  /-- At lines 115-119: an item was received, the handler and the completion call
  are still to come. -/
  | executing (asyncReq : httpd_async_req_t)
deriving DecidableEq, Repr

/-- The statics of `WebServer` (lines 12-14 of `WebServer.cpp`), with each worker
task represented by its position in the loop. -/
structure State where
  async_req_queue : Option Queue
  worker_ready_count : Option Semaphore
  worker_handles : List Worker
deriving DecidableEq, Repr

/-- Calls recorded in the trace. -/
inductive Event where
  | async_handler_begin (req : Nat) (error : esp_err_t)
  | async_handler_complete (req : Nat)
  | semaphoreTake (ok : Bool)
  | semaphoreGive (ok : Bool)
  | queueSend (item : httpd_async_req_t) (ok : Bool)
  | queueReceive (item : httpd_async_req_t)
  | handlerCall (handler : Nat) (req : Nat)
  | logError (msg : String)
deriving DecidableEq, Repr

/-- The function `WebServer::start_async_req_workers` (lines 79-106), run on the
statics as the loader leaves them (all null). The arguments say whether the kernel
allocates the semaphore and the queue, and whether `xTaskCreate` passes for
worker number `i`. -/
def start_async_req_workers (N : Nat) (semAllocated queueAllocated : Bool)
    (created : Nat → Bool) : State :=
  match xSemaphoreCreateCounting N 0 semAllocated with
  | none => ⟨none, none, List.replicate N Worker.absent⟩
  | some sem =>
    match xQueueCreate 1 queueAllocated with
    | none => ⟨none, none, List.replicate N Worker.absent⟩
    | some q =>
      ⟨some q, some sem,
        (List.range N).map (fun i => if created i then Worker.announcing else Worker.absent)⟩

/-- The function `WebServer::submit_async_req` (lines 135-155). The arguments `error`
and `copied` are what `httpd_req_async_handler_begin` returns and stores. The result
is the returned status, the state at return and the calls made; `none` means that a
null handle was passed to a FreeRTOS primitive, after which the program does not
return a status (failed `configASSERT`, or a null dereference). -/
def submit_async_req (s : State) (req handler : Nat) (error : esp_err_t) (copied : Nat) :
    Option (esp_err_t × State × List Event) :=
  if error ≠ ESP_OK then
    some (error, s, [Event.async_handler_begin req error])
  else
    let asyncReq : httpd_async_req_t := ⟨copied, handler⟩
    match s.worker_ready_count with
    | none => none
    | some sem =>
      if (xSemaphoreTake sem).1 = false then
        some (ESP_FAIL, ⟨s.async_req_queue, some (xSemaphoreTake sem).2, s.worker_handles⟩,
          [Event.async_handler_begin req error, Event.semaphoreTake false,
           Event.async_handler_complete copied])
      else
        match s.async_req_queue with
        | none => none
        | some q =>
          if (xQueueSend q asyncReq).1 = false then
            some (ESP_FAIL,
              ⟨some (xQueueSend q asyncReq).2, some (xSemaphoreTake sem).2, s.worker_handles⟩,
              [Event.async_handler_begin req error, Event.semaphoreTake true,
               Event.queueSend asyncReq false, Event.async_handler_complete copied])
          else
            some (ESP_OK,
              ⟨some (xQueueSend q asyncReq).2, some (xSemaphoreTake sem).2, s.worker_handles⟩,
              [Event.async_handler_begin req error, Event.semaphoreTake true,
               Event.queueSend asyncReq true])

/-- Line 111 of `async_req_worker_task`: worker `i` calls `xSemaphoreGive` and moves
on to `xQueueReceive`. The result of the give is not looked at. `none`: worker `i`
is not at this line, or the handle is null. -/
def worker_give (s : State) (i : Nat) : Option (State × List Event) :=
  match s.worker_handles[i]? with
  | some Worker.announcing =>
    match s.worker_ready_count with
    | none => none
    | some sem =>
      some (⟨s.async_req_queue, some (xSemaphoreGive sem).2,
              s.worker_handles.set i Worker.waiting⟩,
            [Event.semaphoreGive (xSemaphoreGive sem).1])
  | _ => none

/-- Line 114 of `async_req_worker_task`: the call `xQueueReceive` of worker `i`
returns with an item. With `portMAX_DELAY` the call does not time out, so it returns
only with an item. `none`: worker `i` is not inside the call, or the queue is empty
(the worker stays blocked), or the handle is null. -/
def worker_receive (s : State) (i : Nat) : Option (State × List Event) :=
  match s.worker_handles[i]? with
  | some Worker.waiting =>
    match s.async_req_queue with
    | none => none
    | some q =>
      match xQueueReceive q with
      | none => none
      | some (asyncReq, rest) =>
        some (⟨some rest, s.worker_ready_count,
                s.worker_handles.set i (Worker.executing asyncReq)⟩,
              [Event.queueReceive asyncReq])
  | _ => none

/-- Lines 115-119 of `async_req_worker_task`: worker `i` calls the handler of its item
on the item's request, then `httpd_req_async_handler_complete` on the same request,
and goes back to the head of the loop. The handler's return value is dropped: the
code never reads it. The completion's return value only decides whether an error is
logged. `none`: worker `i` holds no item. -/
def worker_run (s : State) (i : Nat) (_handlerRet completeRet : esp_err_t) :
    Option (State × List Event) :=
  match s.worker_handles[i]? with
  | some (Worker.executing asyncReq) =>
    some (⟨s.async_req_queue, s.worker_ready_count,
            s.worker_handles.set i Worker.announcing⟩,
          [Event.handlerCall asyncReq.handler asyncReq.req,
           Event.async_handler_complete asyncReq.req] ++
          (if completeRet ≠ ESP_OK then [Event.logError "Failed to complete async request"]
           else []))
  | _ => none

/-! ## Step model -/

/-- The steps of the dispatch subsystem. -/
inductive Action where
  /-- Worker `i` announces readiness (`xSemaphoreGive`). -/
  | announce (i : Nat)
  /-- The accept thread calls `submit_async_req`. -/
  | submit (req handler : Nat) (error : esp_err_t) (copied : Nat)
  /-- Worker `i` receives an item (`xQueueReceive` returns). -/
  | receive (i : Nat)
  /-- Worker `i` runs the handler and completes the request. -/
  | run (i : Nat) (handlerRet completeRet : esp_err_t)
deriving DecidableEq, Repr

/-- One step; `none` when the step cannot be taken in `s`. -/
def step (s : State) : Action → Option State
  | Action.announce i => (worker_give s i).map (fun r => r.1)
  | Action.submit req handler error copied =>
    (submit_async_req s req handler error copied).map (fun r => r.2.1)
  | Action.receive i => (worker_receive s i).map (fun r => r.1)
  | Action.run i handlerRet completeRet =>
    (worker_run s i handlerRet completeRet).map (fun r => r.1)

/-- A sequence of steps. -/
def exec (s : State) : List Action → Option State
  | [] => some s
  | a :: rest => (step s a).bind (fun t => exec t rest)

/-- The states the subsystem can be in after `start_async_req_workers` with pool
size `N`, whatever the allocation results. -/
def Reachable (N : Nat) (s : State) : Prop :=
  ∃ (semAllocated queueAllocated : Bool) (created : Nat → Bool) (acts : List Action),
    exec (start_async_req_workers N semAllocated queueAllocated created) acts = some s

/-- A worker inside `xQueueReceive`. -/
def Worker.isWaiting : Worker → Bool
  | Worker.waiting => true
  | _ => false

/-- A worker holding an item it has not completed yet. -/
def Worker.isExecuting : Worker → Bool
  | Worker.executing _ => true
  | _ => false

/-- Number of workers that have announced and are inside `xQueueReceive`. -/
def numWaiting (s : State) : Nat := s.worker_handles.countP Worker.isWaiting

/-- Number of items a worker is executing and has not yet completed. -/
def numExecuting (s : State) : Nat := s.worker_handles.countP Worker.isExecuting

/-- Number of items sitting in `async_req_queue`. -/
def numQueued (s : State) : Nat :=
  match s.async_req_queue with
  | none => 0
  | some q => q.items.length

/-- Count of the admission gate (0 for a null handle). -/
def gateCount (s : State) : Nat :=
  match s.worker_ready_count with
  | none => 0
  | some sem => sem.uxCount

/-- Handoffs that are outstanding: queued or being executed. -/
def outstanding (s : State) : Nat := numQueued s + numExecuting s

/-- Invariant of the step model for pool size `N`. -/
def Inv (N : Nat) (s : State) : Prop :=
  s.worker_handles.length = N ∧
  match s.worker_ready_count, s.async_req_queue with
  | some sem, some q =>
    sem.uxMaxCount = N ∧ q.uxQueueLength = 1 ∧ q.items.length ≤ 1 ∧
      sem.uxCount + q.items.length ≤ numWaiting s
  | none, none => ∀ w ∈ s.worker_handles, w = Worker.absent
  | _, _ => False

/-- The requests on which `httpd_req_async_handler_complete` is called in a trace,
in order. -/
def completions (ev : List Event) : List Nat :=
  ev.filterMap (fun e =>
    match e with
    | Event.async_handler_complete req => some req
    | _ => none)

/-- The handler invocations of a trace, in order: handler and request. -/
def handlerCalls (ev : List Event) : List (Nat × Nat) :=
  ev.filterMap (fun e =>
    match e with
    | Event.handlerCall handler req => some (handler, req)
    | _ => none)

/-- The state after `start_async_req_workers` succeeded in full and the first `k`
workers have made their first announcement. -/
def announced (N k : Nat) : State :=
  ⟨some ⟨1, []⟩, some ⟨N, k⟩,
    List.replicate k Worker.waiting ++ List.replicate (N - k) Worker.announcing⟩

/-! ## Gate operations on their own -/

/-- The two operations the program performs on the admission gate. -/
inductive GateOp where
  /-- The call `xSemaphoreTake(worker_ready_count, 0)` of `submit_async_req`. -/
  | take
  /-- The call `xSemaphoreGive(worker_ready_count)` of `async_req_worker_task`. -/
  | give
deriving DecidableEq, Repr

/-- Effect of one gate operation on the gate. -/
def GateOp.apply (sem : Semaphore) : GateOp → Semaphore
  | GateOp.take => (xSemaphoreTake sem).2
  | GateOp.give => (xSemaphoreGive sem).2

/-- The gate after each operation of a sequence, in order. -/
def gateTrace (sem : Semaphore) : List GateOp → List Semaphore
  | [] => []
  | op :: rest => GateOp.apply sem op :: gateTrace (GateOp.apply sem op) rest

/-! ## The admission scenario -/

/-- The state in which all `N` workers have announced readiness and wait in
`xQueueReceive`: gate count `N`, queue empty. -/
def allIdle (N : Nat) : State :=
  ⟨some ⟨1, []⟩, some ⟨N, N⟩, List.replicate N Worker.waiting⟩

/-- The first `k` rounds of the scenario: in round `i` the accept thread submits
request `reqs i` (original request, handler, copied handle), lifetime extension
succeeds, and worker `i` receives the item before the next submit. The result is the
list of statuses returned by the submits and the state reached. -/
def admitRounds (reqs : Nat → Nat × Nat × Nat) : Nat → State → Option (List esp_err_t × State)
  | 0, s => some ([], s)
  | k + 1, s =>
    match admitRounds reqs k s with
    | none => none
    | some (statuses, t) =>
      match submit_async_req t (reqs k).1 (reqs k).2.1 ESP_OK (reqs k).2.2 with
      | none => none
      | some (status, u, _) =>
        match worker_receive u k with
        | none => none
        | some (v, _) => some (statuses ++ [status], v)

/-- The state after `k` rounds from the idle state: workers `0` to `k - 1` execute
the items of their rounds, the others wait, the gate count is `N - k`. -/
def admitted (N k : Nat) (reqs : Nat → Nat × Nat × Nat) : State :=
  ⟨some ⟨1, []⟩, some ⟨N, N - k⟩,
    (List.range k).map (fun i => Worker.executing ⟨(reqs i).2.2, (reqs i).2.1⟩) ++
      List.replicate (N - k) Worker.waiting⟩

/-- The whole scenario for pool size `N`: `N` rounds from the idle state, one more
submit while all handlers run, then worker `j` finishes its handler, completes the
request and announces again, then a last submit. The result is the list of the
statuses of all `N + 2` submits. -/
def scenario (N : Nat) (reqs : Nat → Nat × Nat × Nat) (j : Nat)
    (handlerRet completeRet : esp_err_t) : Option (List esp_err_t) :=
  match admitRounds reqs N (allIdle N) with
  | none => none
  | some (statuses, s) =>
    match submit_async_req s (reqs N).1 (reqs N).2.1 ESP_OK (reqs N).2.2 with
    | none => none
    | some (busy, s1, _) =>
      match worker_run s1 j handlerRet completeRet with
      | none => none
      | some (s2, _) =>
        match worker_give s2 j with
        | none => none
        | some (s3, _) =>
          match submit_async_req s3 (reqs (N + 1)).1 (reqs (N + 1)).2.1 ESP_OK
              (reqs (N + 1)).2.2 with
          | none => none
          | some (last, _, _) => some (statuses ++ [busy, last])

/-! ## JSON endpoints -/

/-- Modelled from the spec: the values a field of a `JsonWrapper` object can hold.
The class `JsonWrapper` (`JsonWrapper.h`) is not among the sources; the spec shows
objects with string and integer fields. -/
inductive JsonValue where
  | str (s : String)
  | num (n : Int)
  | bool (b : Bool)
  | null
deriving DecidableEq, Repr

/-- Modelled from the spec: a `JsonWrapper` object (`JsonWrapper.h` is not among the
sources) as the list of its fields, in the order in which they were added. A
default-constructed `JsonWrapper` has no fields. -/
structure JsonWrapper where
  fields : List (String × JsonValue)
deriving DecidableEq, Repr

/-- Modelled from the spec: `JsonWrapper::AddItem` (not among the sources) adds one
field to the object. -/
def JsonWrapper.AddItem (json : JsonWrapper) (key : String) (value : JsonValue) :
    JsonWrapper :=
  ⟨json.fields ++ [(key, value)]⟩

/-- Modelled from the spec: `JsonWrapper::Empty` (not among the sources) holds for an
object without fields, which is also what a failed parse gives. -/
def JsonWrapper.Empty (json : JsonWrapper) : Bool :=
  json.fields.isEmpty

/-- Modelled from the spec: `JsonWrapper::GetField(key, out, flag)` for a
`std::string` output (not among the sources) succeeds when the object has a field
`key` that holds a string, and then stores that string. -/
def JsonWrapper.GetField (json : JsonWrapper) (key : String) (_flag : Bool) :
    Option String :=
  match json.fields.lookup key with
  | some (JsonValue.str value) => some value
  | _ => none

/-- The two functions of `JsonWrapper` that turn text into an object and back; they
are parameters of the handlers. -/
structure JsonText where
  Parse : String → JsonWrapper
  ToString : JsonWrapper → String

/-- Calls a handler makes on the response and on the `WiFiManager`. -/
inductive HttpCall where
  | httpd_resp_set_status (status : String)
  | httpd_resp_set_type (contentType : String)
  | httpd_resp_sendstr (body : String)
  | configSetHostName (host_name : String)
deriving DecidableEq, Repr

/-- The struct `WebContext` of `WebServer.h`, lines 10-16; `none` is a null
`wifiManager`. -/
structure WebContext where
  wifiManager : Option Nat
deriving DecidableEq, Repr

/-- What a handler reads of a request `httpd_req_t`: its `user_ctx` (`none` is null),
its `content_len` (the client's `Content-Length`, a `size_t`), and what
`httpd_req_recv` does when it is called on it: the value it returns and the content
of the buffer afterwards. -/
structure httpd_req_t where
  user_ctx : Option WebContext
  content_len : Nat
  recv_ret : Int
  recv_body : String
deriving DecidableEq, Repr

/-- The function `WebServer::sendJsonError` (lines 158-178). -/
def sendJsonError (text : JsonText) (statusCode : Int) (message : String) :
    esp_err_t × List HttpCall :=
  let statusString : String :=
    if statusCode = 400 then "400 Bad Request"
    else if statusCode = 404 then "404 Not Found"
    else if statusCode = 500 then "500 Internal Server Error"
    else toString statusCode
  let json : JsonWrapper :=
    ((JsonWrapper.mk []).AddItem "error" (JsonValue.str message)).AddItem "statusCode"
      (JsonValue.num statusCode)
  let out : String := text.ToString json
  (ESP_FAIL,
    [HttpCall.httpd_resp_set_status statusString,
     HttpCall.httpd_resp_set_type "application/json",
     HttpCall.httpd_resp_sendstr out])

/-- The function `WebServer::set_hostname_handler` (lines 230-272). The argument
`canResize n` says whether `body.resize(n)` of line 246 succeeds, that is, whether `n`
is within `std::string::max_size()` and the heap has room for `n` bytes; when it does
not, the resize raises `std::length_error` or `std::bad_alloc`, nothing in the handler
catches it, and the handler returns no status: the result is `none`. -/
def set_hostname_handler (text : JsonText) (canResize : Nat → Bool) (req : httpd_req_t) :
    Option (esp_err_t × List HttpCall) :=
  match req.user_ctx with
  | none => some (sendJsonError text 500 "Missing context")
  | some ctx =>
    match ctx.wifiManager with
    | none => some (sendJsonError text 500 "Missing wifiManager")
    | some _ =>
      let contentLen := req.content_len
      if contentLen = 0 then some (sendJsonError text 400 "Content-Length required")
      else if canResize contentLen = false then none
      else
        let ret := req.recv_ret
        let body := req.recv_body
        if ret ≤ 0 then some (sendJsonError text 400 "Failed to read request body")
        else
          let json := text.Parse body
          if json.Empty then some (sendJsonError text 400 "Invalid JSON")
          else
            match json.GetField "host_name" true with
            | none => some (sendJsonError text 400 "Missing or invalid \x27host_name\x27")
            | some host_name =>
              let response : JsonWrapper :=
                ((JsonWrapper.mk []).AddItem "status" (JsonValue.str "OK")).AddItem
                  "host_name" (JsonValue.str host_name)
              let responseStr := text.ToString response
              some (ESP_OK,
                [HttpCall.configSetHostName host_name,
                 HttpCall.httpd_resp_set_type "application/json",
                 HttpCall.httpd_resp_sendstr responseStr])

/-- The host names passed to `configSetHostName` in a trace, in order. -/
def hostNameCalls (calls : List HttpCall) : List String :=
  calls.filterMap (fun c =>
    match c with
    | HttpCall.configSetHostName host_name => some host_name
    | _ => none)

/-- The conditions under which `set_hostname_handler` accepts a request and sets the
host name `h`. -/
def hostnameAccepted (text : JsonText) (req : httpd_req_t) (h : String) : Prop :=
  (∃ ctx wm, req.user_ctx = some ctx ∧ ctx.wifiManager = some wm) ∧
  0 < req.content_len ∧ 0 < req.recv_ret ∧
  (text.Parse req.recv_body).Empty = false ∧
  (text.Parse req.recv_body).GetField "host_name" true = some h

/-- The context or its `wifiManager` is missing. -/
def collaboratorMissing (req : httpd_req_t) : Prop :=
  req.user_ctx = none ∨ ∃ ctx, req.user_ctx = some ctx ∧ ctx.wifiManager = none

end WebServer

namespace WebServer

theorem countP_set_add {α : Type} (p : α → Bool) (l : List α) (i : Nat) (a b : α)
    (h : l[i]? = some a) :
    (l.set i b).countP p + (if p a then 1 else 0) = l.countP p + (if p b then 1 else 0) := by
  induction l generalizing i with
  | nil => simp at h
  | cons x xs ih =>
    cases i with
    | zero =>
      simp at h
      subst h
      simp [List.countP_cons]
      omega
    | succ k =>
      simp at h
      have := ih k h
      simp [List.countP_cons]
      omega

theorem numWaiting_add_numExecuting_le (s : State) :
    numWaiting s + numExecuting s ≤ s.worker_handles.length := by
  unfold numWaiting numExecuting
  induction s.worker_handles with
  | nil => simp
  | cons w ws ih =>
    cases w <;> simp [List.countP_cons, Worker.isWaiting, Worker.isExecuting] <;> omega

theorem inv_start (N : Nat) (a b : Bool) (c : Nat → Bool) :
    Inv N (start_async_req_workers N a b c) := by
  unfold start_async_req_workers xSemaphoreCreateCounting xQueueCreate Inv
  cases a <;> cases b <;> simp [numWaiting, List.countP_eq_zero]

theorem inv_worker_give (N : Nat) (s t : State) (i : Nat) (ev : List Event)
    (hs : Inv N s) (h : worker_give s i = some (t, ev)) : Inv N t := by
  unfold worker_give at h
  split at h
  · rename_i hw
    split at h
    · simp at h
    · rename_i sem hsem
      simp only [Option.some.injEq, Prod.mk.injEq] at h
      obtain ⟨rfl, -⟩ := h
      obtain ⟨hlen, hrest⟩ := hs
      rw [hsem] at hrest
      have hc := countP_set_add Worker.isWaiting s.worker_handles i _ Worker.waiting hw
      simp only [Worker.isWaiting] at hc
      refine ⟨by simpa using hlen, ?_⟩
      cases hq : s.async_req_queue with
      | none => rw [hq] at hrest; exact hrest.elim
      | some q =>
        rw [hq] at hrest
        obtain ⟨h1, h2, h3, h4⟩ := hrest
        simp only [numWaiting] at h4 ⊢
        refine ⟨?_, h2, h3, ?_⟩
        · unfold xSemaphoreGive; split <;> simpa using h1
        · unfold xSemaphoreGive
          split <;> simp at hc ⊢ <;> omega
  · simp at h

theorem inv_worker_receive (N : Nat) (s t : State) (i : Nat) (ev : List Event)
    (hs : Inv N s) (h : worker_receive s i = some (t, ev)) : Inv N t := by
  unfold worker_receive at h
  split at h
  · rename_i hw
    split at h
    · simp at h
    · rename_i q hq
      unfold xQueueReceive at h
      cases hi : q.items with
      | nil => simp [hi] at h
      | cons item rest =>
        simp only [hi, Option.some.injEq, Prod.mk.injEq] at h
        obtain ⟨rfl, -⟩ := h
        obtain ⟨hlen, hrest⟩ := hs
        rw [hq] at hrest
        have hc := countP_set_add Worker.isWaiting s.worker_handles i _
          (Worker.executing item) hw
        simp only [Worker.isWaiting] at hc
        refine ⟨by simpa using hlen, ?_⟩
        cases hsem : s.worker_ready_count with
        | none => rw [hsem] at hrest; exact hrest.elim
        | some sem =>
          rw [hsem] at hrest
          obtain ⟨h1, h2, h3, h4⟩ := hrest
          simp only [numWaiting, hi, List.length_cons] at h3 h4 ⊢
          simp at hc
          exact ⟨h1, h2, by omega, by omega⟩
  · simp at h

theorem inv_worker_run (N : Nat) (s t : State) (i : Nat) (hr cr : esp_err_t)
    (ev : List Event) (hs : Inv N s) (h : worker_run s i hr cr = some (t, ev)) :
    Inv N t := by
  unfold worker_run at h
  split at h
  · rename_i asyncReq hw
    simp only [Option.some.injEq, Prod.mk.injEq] at h
    obtain ⟨rfl, -⟩ := h
    obtain ⟨hlen, hrest⟩ := hs
    have hc := countP_set_add Worker.isWaiting s.worker_handles i _ Worker.announcing hw
    simp only [Worker.isWaiting] at hc
    refine ⟨by simpa using hlen, ?_⟩
    cases hsem : s.worker_ready_count with
    | none =>
      cases hq : s.async_req_queue with
      | none =>
        rw [hsem, hq] at hrest
        have := hrest _ (List.getElem?_mem hw)
        simp at this
      | some q => rw [hsem, hq] at hrest; exact hrest.elim
    | some sem =>
      cases hq : s.async_req_queue with
      | none => rw [hsem, hq] at hrest; exact hrest.elim
      | some q =>
        rw [hsem, hq] at hrest
        obtain ⟨h1, h2, h3, h4⟩ := hrest
        simp only [numWaiting] at h4 ⊢
        simp at hc
        exact ⟨h1, h2, h3, by omega⟩
  · simp at h

theorem submit_begin_failed (s : State) (req handler : Nat) (error : esp_err_t)
    (copied : Nat) (h : error ≠ ESP_OK) :
    submit_async_req s req handler error copied =
      some (error, s, [Event.async_handler_begin req error]) := by
  simp [submit_async_req, h]

theorem submit_null_gate (s : State) (req handler copied : Nat)
    (h : s.worker_ready_count = none) :
    submit_async_req s req handler ESP_OK copied = none := by
  simp [submit_async_req, h]

theorem submit_busy (s : State) (req handler copied : Nat) (sem : Semaphore)
    (h : s.worker_ready_count = some sem) (hz : sem.uxCount = 0) :
    submit_async_req s req handler ESP_OK copied =
      some (ESP_FAIL, ⟨s.async_req_queue, some sem, s.worker_handles⟩,
        [Event.async_handler_begin req ESP_OK, Event.semaphoreTake false,
         Event.async_handler_complete copied]) := by
  simp [submit_async_req, h, xSemaphoreTake, hz]

theorem submit_null_queue (s : State) (req handler copied : Nat) (sem : Semaphore)
    (h : s.worker_ready_count = some sem) (hpos : 0 < sem.uxCount)
    (hq : s.async_req_queue = none) :
    submit_async_req s req handler ESP_OK copied = none := by
  simp [submit_async_req, h, xSemaphoreTake, hpos, hq]

theorem submit_full (s : State) (req handler copied : Nat) (sem : Semaphore) (q : Queue)
    (h : s.worker_ready_count = some sem) (hpos : 0 < sem.uxCount)
    (hq : s.async_req_queue = some q) (hfull : ¬ q.items.length < q.uxQueueLength) :
    submit_async_req s req handler ESP_OK copied =
      some (ESP_FAIL, ⟨some q, some ⟨sem.uxMaxCount, sem.uxCount - 1⟩, s.worker_handles⟩,
        [Event.async_handler_begin req ESP_OK, Event.semaphoreTake true,
         Event.queueSend ⟨copied, handler⟩ false, Event.async_handler_complete copied]) := by
  simp [submit_async_req, h, xSemaphoreTake, hpos, hq, xQueueSend, hfull]

theorem submit_accepted (s : State) (req handler copied : Nat) (sem : Semaphore)
    (q : Queue) (h : s.worker_ready_count = some sem) (hpos : 0 < sem.uxCount)
    (hq : s.async_req_queue = some q) (hroom : q.items.length < q.uxQueueLength) :
    submit_async_req s req handler ESP_OK copied =
      some (ESP_OK,
        ⟨some ⟨q.uxQueueLength, q.items ++ [⟨copied, handler⟩]⟩,
          some ⟨sem.uxMaxCount, sem.uxCount - 1⟩, s.worker_handles⟩,
        [Event.async_handler_begin req ESP_OK, Event.semaphoreTake true,
         Event.queueSend ⟨copied, handler⟩ true]) := by
  simp [submit_async_req, h, xSemaphoreTake, hpos, hq, xQueueSend, hroom]

theorem inv_submit (N : Nat) (s t : State) (req handler : Nat) (error : esp_err_t)
    (copied : Nat) (st : esp_err_t) (ev : List Event) (hs : Inv N s)
    (h : submit_async_req s req handler error copied = some (st, t, ev)) : Inv N t := by
  by_cases herr : error = ESP_OK
  · subst herr
    obtain ⟨hlen, hrest⟩ := hs
    cases hsem : s.worker_ready_count with
    | none => rw [submit_null_gate s req handler copied hsem] at h; simp at h
    | some sem =>
      cases hq : s.async_req_queue with
      | none => rw [hsem, hq] at hrest; exact hrest.elim
      | some q =>
        rw [hsem, hq] at hrest
        obtain ⟨h1, h2, h3, h4⟩ := hrest
        simp only [numWaiting] at h4
        by_cases hpos : 0 < sem.uxCount
        · by_cases hroom : q.items.length < q.uxQueueLength
          · rw [submit_accepted s req handler copied sem q hsem hpos hq hroom] at h
            simp only [Option.some.injEq, Prod.mk.injEq] at h
            obtain ⟨-, rfl, -⟩ := h
            refine ⟨hlen, ?_⟩
            simp only [numWaiting, List.length_append, List.length_singleton]
            exact ⟨h1, h2, by omega, by omega⟩
          · rw [submit_full s req handler copied sem q hsem hpos hq hroom] at h
            simp only [Option.some.injEq, Prod.mk.injEq] at h
            obtain ⟨-, rfl, -⟩ := h
            refine ⟨hlen, ?_⟩
            simp only [numWaiting]
            exact ⟨h1, h2, h3, by omega⟩
        · rw [submit_busy s req handler copied sem hsem (by omega)] at h
          simp only [Option.some.injEq, Prod.mk.injEq] at h
          obtain ⟨-, rfl, -⟩ := h
          refine ⟨hlen, ?_⟩
          simp only [hq, numWaiting]
          exact ⟨h1, h2, h3, h4⟩
  · rw [submit_begin_failed s req handler error copied herr] at h
    simp only [Option.some.injEq, Prod.mk.injEq] at h
    obtain ⟨-, rfl, -⟩ := h
    exact hs

theorem inv_step (N : Nat) (s t : State) (a : Action) (hs : Inv N s)
    (h : step s a = some t) : Inv N t := by
  cases a with
  | announce i =>
    simp only [step, Option.map_eq_some'] at h
    obtain ⟨⟨t1, ev⟩, h1, rfl⟩ := h
    exact inv_worker_give N s t1 i ev hs h1
  | submit req handler error copied =>
    simp only [step, Option.map_eq_some'] at h
    obtain ⟨⟨st, t1, ev⟩, h1, rfl⟩ := h
    exact inv_submit N s t1 req handler error copied st ev hs h1
  | receive i =>
    simp only [step, Option.map_eq_some'] at h
    obtain ⟨⟨t1, ev⟩, h1, rfl⟩ := h
    exact inv_worker_receive N s t1 i ev hs h1
  | run i hr cr =>
    simp only [step, Option.map_eq_some'] at h
    obtain ⟨⟨t1, ev⟩, h1, rfl⟩ := h
    exact inv_worker_run N s t1 i hr cr ev hs h1

theorem inv_exec (N : Nat) (acts : List Action) (s t : State) (hs : Inv N s)
    (h : exec s acts = some t) : Inv N t := by
  induction acts generalizing s with
  | nil =>
    simp only [exec, Option.some.injEq] at h
    exact h ▸ hs
  | cons a rest ih =>
    simp only [exec, Option.bind_eq_some] at h
    obtain ⟨u, hu, hrest⟩ := h
    exact ih u (inv_step N s u a hs hu) hrest

theorem inv_of_reachable (N : Nat) (s : State) (h : Reachable N s) : Inv N s := by
  obtain ⟨a, b, c, acts, hexec⟩ := h
  exact inv_exec N acts _ s (inv_start N a b c) hexec

theorem inv_outstanding_le (N : Nat) (s : State) (hs : Inv N s) : outstanding s ≤ N := by
  obtain ⟨hlen, hrest⟩ := hs
  have hle := numWaiting_add_numExecuting_le s
  unfold outstanding numQueued
  cases hsem : s.worker_ready_count with
  | none =>
    cases hq : s.async_req_queue with
    | none => simp only; omega
    | some q => rw [hsem, hq] at hrest; exact hrest.elim
  | some sem =>
    cases hq : s.async_req_queue with
    | none => rw [hsem, hq] at hrest; exact hrest.elim
    | some q =>
      rw [hsem, hq] at hrest
      simp only
      omega

theorem inv_gate_of_full (N : Nat) (s : State) (hs : Inv N s) (hN : 0 < N)
    (hfull : outstanding s = N) :
    ∃ sem, s.worker_ready_count = some sem ∧ sem.uxCount = 0 := by
  obtain ⟨hlen, hrest⟩ := hs
  have hle := numWaiting_add_numExecuting_le s
  unfold outstanding numQueued at hfull
  cases hsem : s.worker_ready_count with
  | none =>
    cases hq : s.async_req_queue with
    | none =>
      rw [hsem, hq] at hrest
      have hz : numExecuting s = 0 := by
        unfold numExecuting
        rw [List.countP_eq_zero]
        intro w hw
        rw [hrest w hw]
        simp [Worker.isExecuting]
      rw [hq] at hfull
      simp only at hfull
      omega
    | some q => rw [hsem, hq] at hrest; exact hrest.elim
  | some sem =>
    cases hq : s.async_req_queue with
    | none => rw [hsem, hq] at hrest; exact hrest.elim
    | some q =>
      rw [hsem, hq] at hrest
      rw [hq] at hfull
      simp only at hfull
      exact ⟨sem, rfl, by omega⟩

theorem inv_gate_add_queued_le (N : Nat) (s : State) (hs : Inv N s) :
    gateCount s + numQueued s ≤ numWaiting s := by
  obtain ⟨hlen, hrest⟩ := hs
  unfold gateCount numQueued
  cases hsem : s.worker_ready_count with
  | none =>
    cases hq : s.async_req_queue with
    | none => simp
    | some q => rw [hsem, hq] at hrest; exact hrest.elim
  | some sem =>
    cases hq : s.async_req_queue with
    | none => rw [hsem, hq] at hrest; exact hrest.elim
    | some q =>
      rw [hsem, hq] at hrest
      simp only
      omega

theorem exec_append (s : State) (as bs : List Action) :
    exec s (as ++ bs) = (exec s as).bind (fun t => exec t bs) := by
  induction as generalizing s with
  | nil => simp [exec]
  | cons a rest ih =>
    simp only [List.cons_append, exec]
    cases step s a with
    | none => simp
    | some u => simpa using ih u

theorem getElem?_append_replicate {α : Type} (l : List α) (n : Nat) (a : α) (hn : 0 < n) :
    (l ++ List.replicate n a)[l.length]? = some a := by
  rw [List.getElem?_append_right (le_refl _)]
  simp [hn]

theorem set_append_replicate {α : Type} (l : List α) (n : Nat) (a b : α) (hn : 0 < n) :
    (l ++ List.replicate n a).set l.length b = (l ++ [b]) ++ List.replicate (n - 1) a := by
  obtain ⟨m, rfl⟩ : ∃ m, n = m + 1 := ⟨n - 1, by omega⟩
  rw [List.set_append_right _ _ (le_refl _)]
  simp [List.replicate_succ]

theorem step_announced (N k : Nat) (hk : k < N) :
    step (announced N k) (Action.announce k) = some (announced N (k + 1)) := by
  have h1 := getElem?_append_replicate (List.replicate k Worker.waiting) (N - k)
    Worker.announcing (by omega)
  have h2 := set_append_replicate (List.replicate k Worker.waiting) (N - k)
    Worker.announcing Worker.waiting (by omega)
  simp only [List.length_replicate] at h1 h2
  simp only [step, worker_give, announced, h1, h2, xSemaphoreGive, hk, if_true,
    Option.map_some']
  have h3 : N - k - 1 = N - (k + 1) := by omega
  rw [h3, List.replicate_succ' k]

theorem exec_announced (N k : Nat) (hk : k ≤ N) :
    exec (start_async_req_workers N true true (fun _ => true))
      ((List.range k).map Action.announce) = some (announced N k) := by
  induction k with
  | zero =>
    simp [exec, start_async_req_workers, xSemaphoreCreateCounting, xQueueCreate, announced]
  | succ k ih =>
    rw [List.range_succ, List.map_append, exec_append, ih (by omega)]
    simp [exec, step_announced N k (by omega)]

theorem announced_all (N : Nat) : announced N N = allIdle N := by
  simp [announced, allIdle]

theorem reachable_allIdle (N : Nat) : Reachable N (allIdle N) :=
  ⟨true, true, fun _ => true, (List.range N).map Action.announce, by
    rw [exec_announced N N (le_refl _), announced_all]⟩

theorem gateTrace_bounds (ops : List GateOp) (sem : Semaphore)
    (h : sem.uxCount ≤ sem.uxMaxCount) :
    ∀ g ∈ gateTrace sem ops, g.uxMaxCount = sem.uxMaxCount ∧ g.uxCount ≤ sem.uxMaxCount := by
  induction ops generalizing sem with
  | nil => simp [gateTrace]
  | cons op rest ih =>
    have hstep : (GateOp.apply sem op).uxMaxCount = sem.uxMaxCount ∧
        (GateOp.apply sem op).uxCount ≤ sem.uxMaxCount := by
      cases op
      · simp only [GateOp.apply, xSemaphoreTake]
        by_cases hp : 0 < sem.uxCount
        · simp only [hp, if_true]
          exact ⟨trivial, by omega⟩
        · simp only [hp, if_false]
          exact ⟨trivial, h⟩
      · simp only [GateOp.apply, xSemaphoreGive]
        by_cases hp : sem.uxCount < sem.uxMaxCount
        · simp only [hp, if_true]
          exact ⟨trivial, by omega⟩
        · simp only [hp, if_false]
          exact ⟨trivial, h⟩
    intro g hg
    simp only [gateTrace, List.mem_cons] at hg
    rcases hg with rfl | hg
    · exact hstep
    · have := ih (GateOp.apply sem op) (by omega) g hg
      rw [hstep.1] at this
      exact this

theorem start_gate (N : Nat) (a b : Bool) (c : Nat → Bool) (gate : Semaphore)
    (h : (start_async_req_workers N a b c).worker_ready_count = some gate) :
    gate = ⟨N, 0⟩ := by
  unfold start_async_req_workers xSemaphoreCreateCounting xQueueCreate at h
  cases a <;> cases b <;> simp at h
  exact h.symm

theorem submit_cases (s t : State) (req handler : Nat) (error : esp_err_t) (copied : Nat)
    (st : esp_err_t) (ev : List Event)
    (h : submit_async_req s req handler error copied = some (st, t, ev)) :
    (error ≠ ESP_OK ∧ st = error ∧ t = s ∧ ev = [Event.async_handler_begin req error]) ∨
    (error = ESP_OK ∧ ∃ sem, s.worker_ready_count = some sem ∧ sem.uxCount = 0 ∧
      st = ESP_FAIL ∧ t = s ∧
      ev = [Event.async_handler_begin req ESP_OK, Event.semaphoreTake false,
            Event.async_handler_complete copied]) ∨
    (error = ESP_OK ∧ ∃ sem q, s.worker_ready_count = some sem ∧ 0 < sem.uxCount ∧
      s.async_req_queue = some q ∧ ¬ q.items.length < q.uxQueueLength ∧
      st = ESP_FAIL ∧
      t = ⟨some q, some ⟨sem.uxMaxCount, sem.uxCount - 1⟩, s.worker_handles⟩ ∧
      ev = [Event.async_handler_begin req ESP_OK, Event.semaphoreTake true,
            Event.queueSend ⟨copied, handler⟩ false, Event.async_handler_complete copied]) ∨
    (error = ESP_OK ∧ ∃ sem q, s.worker_ready_count = some sem ∧ 0 < sem.uxCount ∧
      s.async_req_queue = some q ∧ q.items.length < q.uxQueueLength ∧
      st = ESP_OK ∧
      t = ⟨some ⟨q.uxQueueLength, q.items ++ [⟨copied, handler⟩]⟩,
            some ⟨sem.uxMaxCount, sem.uxCount - 1⟩, s.worker_handles⟩ ∧
      ev = [Event.async_handler_begin req ESP_OK, Event.semaphoreTake true,
            Event.queueSend ⟨copied, handler⟩ true]) := by
  by_cases herr : error = ESP_OK
  · subst herr
    right
    cases hsem : s.worker_ready_count with
    | none => rw [submit_null_gate s req handler copied hsem] at h; simp at h
    | some sem =>
      by_cases hpos : 0 < sem.uxCount
      · right
        cases hq : s.async_req_queue with
        | none => rw [submit_null_queue s req handler copied sem hsem hpos hq] at h; simp at h
        | some q =>
          by_cases hroom : q.items.length < q.uxQueueLength
          · right
            rw [submit_accepted s req handler copied sem q hsem hpos hq hroom] at h
            simp only [Option.some.injEq, Prod.mk.injEq] at h
            obtain ⟨rfl, rfl, rfl⟩ := h
            exact ⟨rfl, sem, q, rfl, hpos, rfl, hroom, rfl, rfl, rfl⟩
          · left
            rw [submit_full s req handler copied sem q hsem hpos hq hroom] at h
            simp only [Option.some.injEq, Prod.mk.injEq] at h
            obtain ⟨rfl, rfl, rfl⟩ := h
            exact ⟨rfl, sem, q, rfl, hpos, rfl, hroom, rfl, rfl, rfl⟩
      · left
        rw [submit_busy s req handler copied sem hsem (by omega)] at h
        simp only [Option.some.injEq, Prod.mk.injEq] at h
        obtain ⟨rfl, rfl, rfl⟩ := h
        refine ⟨rfl, sem, rfl, by omega, rfl, ?_, rfl⟩
        rw [← hsem]
  · left
    rw [submit_begin_failed s req handler error copied herr] at h
    simp only [Option.some.injEq, Prod.mk.injEq] at h
    obtain ⟨rfl, rfl, rfl⟩ := h
    exact ⟨herr, rfl, rfl, rfl⟩

theorem worker_receive_cases (s t : State) (i : Nat) (ev : List Event)
    (h : worker_receive s i = some (t, ev)) :
    ∃ (q : Queue) (item : httpd_async_req_t) (rest : List httpd_async_req_t),
      s.worker_handles[i]? = some Worker.waiting ∧ s.async_req_queue = some q ∧
      q.items = item :: rest ∧ ev = [Event.queueReceive item] ∧
      t = ⟨some ⟨q.uxQueueLength, rest⟩, s.worker_ready_count,
            s.worker_handles.set i (Worker.executing item)⟩ := by
  unfold worker_receive at h
  split at h
  · rename_i hw
    split at h
    · simp at h
    · rename_i q hq
      unfold xQueueReceive at h
      cases hi : q.items with
      | nil => simp [hi] at h
      | cons item rest =>
        simp only [hi, Option.some.injEq, Prod.mk.injEq] at h
        obtain ⟨rfl, rfl⟩ := h
        exact ⟨q, item, rest, hw, hq, hi, rfl, rfl⟩
  · simp at h

theorem lt_length_of_getElem? {α : Type} (l : List α) (i : Nat) (a : α)
    (h : l[i]? = some a) : i < l.length := by
  by_contra hlt
  rw [List.getElem?_eq_none (by omega)] at h
  simp at h

theorem round_admitted (N k : Nat) (reqs : Nat → Nat × Nat × Nat) (hk : k < N) :
    submit_async_req (admitted N k reqs) (reqs k).1 (reqs k).2.1 ESP_OK (reqs k).2.2 =
      some (ESP_OK,
        ⟨some ⟨1, [⟨(reqs k).2.2, (reqs k).2.1⟩]⟩, some ⟨N, N - k - 1⟩,
          (admitted N k reqs).worker_handles⟩,
        [Event.async_handler_begin (reqs k).1 ESP_OK, Event.semaphoreTake true,
         Event.queueSend ⟨(reqs k).2.2, (reqs k).2.1⟩ true]) ∧
    worker_receive
        ⟨some ⟨1, [⟨(reqs k).2.2, (reqs k).2.1⟩]⟩, some ⟨N, N - k - 1⟩,
          (admitted N k reqs).worker_handles⟩ k =
      some (admitted N (k + 1) reqs, [Event.queueReceive ⟨(reqs k).2.2, (reqs k).2.1⟩]) := by
  constructor
  · rw [submit_accepted (admitted N k reqs) _ _ _ ⟨N, N - k⟩ ⟨1, []⟩ rfl
      (by simp only; omega) rfl (by simp)]
    simp
  · have h1 := getElem?_append_replicate
      ((List.range k).map (fun i => Worker.executing ⟨(reqs i).2.2, (reqs i).2.1⟩))
      (N - k) Worker.waiting (by omega)
    have h2 := set_append_replicate
      ((List.range k).map (fun i => Worker.executing ⟨(reqs i).2.2, (reqs i).2.1⟩))
      (N - k) Worker.waiting (Worker.executing ⟨(reqs k).2.2, (reqs k).2.1⟩) (by omega)
    simp only [List.length_map, List.length_range] at h1 h2
    have h3 : N - k - 1 = N - (k + 1) := by omega
    simp only [worker_receive, admitted, h1, h2, xQueueReceive, h3, List.range_succ,
      List.map_append, List.map_cons, List.map_nil]

theorem admitRounds_allIdle (N k : Nat) (reqs : Nat → Nat × Nat × Nat) (hk : k ≤ N) :
    admitRounds reqs k (allIdle N) = some (List.replicate k ESP_OK, admitted N k reqs) := by
  induction k with
  | zero => simp [admitRounds, admitted, allIdle]
  | succ k ih =>
    obtain ⟨h1, h2⟩ := round_admitted N k reqs (by omega)
    simp only [admitRounds, ih (by omega), h1, h2, List.replicate_succ' k]

theorem numExecuting_admitted (N : Nat) (reqs : Nat → Nat × Nat × Nat) :
    numExecuting (admitted N N reqs) = N ∧ numWaiting (admitted N N reqs) = 0 ∧
    gateCount (admitted N N reqs) = 0 ∧ numQueued (admitted N N reqs) = 0 := by
  refine ⟨?_, ?_, ?_, ?_⟩
  · simp only [numExecuting, admitted, Nat.sub_self, List.replicate_zero, List.append_nil,
      List.countP_map]
    rw [List.countP_eq_length.mpr]
    · simp
    · intro a _
      simp [Worker.isExecuting]
  · simp only [numWaiting, admitted, Nat.sub_self, List.replicate_zero, List.append_nil,
      List.countP_map]
    rw [List.countP_eq_zero]
    intro a _
    simp [Worker.isWaiting]
  · simp [gateCount, admitted]
  · simp [numQueued, admitted]

theorem scenario_tail (N j : Nat) (reqs : Nat → Nat × Nat × Nat) (hr cr : esp_err_t)
    (hj : j < N) :
    ∃ (ev1 ev2 ev3 ev4 : List Event) (s2 s3 s4 : State),
      submit_async_req (admitted N N reqs) (reqs N).1 (reqs N).2.1 ESP_OK (reqs N).2.2 =
        some (ESP_FAIL, admitted N N reqs, ev1) ∧
      worker_run (admitted N N reqs) j hr cr = some (s2, ev2) ∧
      worker_give s2 j = some (s3, ev3) ∧
      submit_async_req s3 (reqs (N + 1)).1 (reqs (N + 1)).2.1 ESP_OK (reqs (N + 1)).2.2 =
        some (ESP_OK, s4, ev4) := by
  have hget : (admitted N N reqs).worker_handles[j]? =
      some (Worker.executing ⟨(reqs j).2.2, (reqs j).2.1⟩) := by
    simp [admitted, List.getElem?_range hj]
  have hlen : j < (admitted N N reqs).worker_handles.length := by
    simp [admitted, hj]
  have hget2 : ((admitted N N reqs).worker_handles.set j Worker.announcing)[j]? =
      some Worker.announcing := List.getElem?_set_self hlen
  have h1 : submit_async_req (admitted N N reqs) (reqs N).1 (reqs N).2.1 ESP_OK
      (reqs N).2.2 = some (ESP_FAIL, admitted N N reqs,
        [Event.async_handler_begin (reqs N).1 ESP_OK, Event.semaphoreTake false,
         Event.async_handler_complete (reqs N).2.2]) := by
    rw [submit_busy (admitted N N reqs) (reqs N).1 (reqs N).2.1 (reqs N).2.2
      ⟨N, N - N⟩ rfl (by simp)]
    simp [admitted]
  have h2 : worker_run (admitted N N reqs) j hr cr =
      some (⟨some ⟨1, []⟩, some ⟨N, N - N⟩,
              (admitted N N reqs).worker_handles.set j Worker.announcing⟩,
            [Event.handlerCall (reqs j).2.1 (reqs j).2.2,
             Event.async_handler_complete (reqs j).2.2] ++
            (if cr ≠ ESP_OK then [Event.logError "Failed to complete async request"]
             else [])) := by
    simp only [worker_run, hget]
    rfl
  have h3 : worker_give
      ⟨some ⟨1, []⟩, some ⟨N, N - N⟩,
        (admitted N N reqs).worker_handles.set j Worker.announcing⟩ j =
      some (⟨some ⟨1, []⟩, some (xSemaphoreGive ⟨N, N - N⟩).2,
              ((admitted N N reqs).worker_handles.set j Worker.announcing).set j
                Worker.waiting⟩,
            [Event.semaphoreGive (xSemaphoreGive ⟨N, N - N⟩).1]) := by
    simp only [worker_give, hget2]
  have hgive : xSemaphoreGive ⟨N, N - N⟩ = (true, ⟨N, 1⟩) := by
    have hN : 0 < N := by omega
    simp [xSemaphoreGive, hN]
  have h4 := submit_accepted
    ⟨some ⟨1, []⟩, some (xSemaphoreGive ⟨N, N - N⟩).2,
      ((admitted N N reqs).worker_handles.set j Worker.announcing).set j Worker.waiting⟩
    (reqs (N + 1)).1 (reqs (N + 1)).2.1 (reqs (N + 1)).2.2
    (xSemaphoreGive ⟨N, N - N⟩).2 ⟨1, []⟩ rfl
    (by rw [hgive]; exact Nat.one_pos) rfl (by simp)
  exact ⟨_, _, _, _, _, _, _, h1, h2, h3, h4⟩

/-- C1. Bounded concurrency. In every state reachable from `start_async_req_workers`
with pool size `N` the number of outstanding handoffs (queued or being executed) is at
most `N`; and where `N` handoffs are outstanding the gate count is 0, so that a further
`submit_async_req` returns a failure status, which is `ESP_FAIL` when lifetime
extension succeeded, leaves the queue as it is and makes no `xQueueSend` call. -/
theorem bounded_concurrency (N : Nat) (s : State) (hN : 0 < N) (hs : Reachable N s) :
    outstanding s ≤ N ∧
    (outstanding s = N →
      gateCount s = 0 ∧
      ∀ (req handler : Nat) (error : esp_err_t) (copied : Nat),
        ∃ (st : esp_err_t) (t : State) (ev : List Event),
          submit_async_req s req handler error copied = some (st, t, ev) ∧
          st ≠ ESP_OK ∧ (error = ESP_OK → st = ESP_FAIL) ∧
          t.async_req_queue = s.async_req_queue ∧ gateCount t = 0 ∧
          ∀ (item : httpd_async_req_t) (ok : Bool), Event.queueSend item ok ∉ ev) := by
  have hinv := inv_of_reachable N s hs
  refine ⟨inv_outstanding_le N s hinv, fun hfull => ?_⟩
  obtain ⟨sem, hsem, hz⟩ := inv_gate_of_full N s hinv hN hfull
  refine ⟨by simp [gateCount, hsem, hz], fun req handler error copied => ?_⟩
  by_cases herr : error = ESP_OK
  · subst herr
    refine ⟨ESP_FAIL, _, _, submit_busy s req handler copied sem hsem hz, by decide,
      fun _ => rfl, rfl, by simp [gateCount, hz], ?_⟩
    intro item ok
    simp
  · refine ⟨error, s, _, submit_begin_failed s req handler error copied herr, herr,
      fun h => absurd h herr, rfl, by simp [gateCount, hsem, hz], ?_⟩
    intro item ok
    simp

/-- Witness for C1: with `MAX_ASYNC_REQUESTS` workers, after five accepted submits
that were each received, five handoffs are outstanding, the gate count is 0 and the
next submit is rejected with `ESP_FAIL`. -/
theorem bounded_concurrency_witness :
    0 < MAX_ASYNC_REQUESTS ∧
    outstanding
      ⟨some ⟨1, []⟩, some ⟨5, 0⟩,
        [Worker.executing ⟨20, 10⟩, Worker.executing ⟨21, 11⟩, Worker.executing ⟨22, 12⟩,
         Worker.executing ⟨23, 13⟩, Worker.executing ⟨24, 14⟩]⟩ = MAX_ASYNC_REQUESTS ∧
    gateCount
      ⟨some ⟨1, []⟩, some ⟨5, 0⟩,
        [Worker.executing ⟨20, 10⟩, Worker.executing ⟨21, 11⟩, Worker.executing ⟨22, 12⟩,
         Worker.executing ⟨23, 13⟩, Worker.executing ⟨24, 14⟩]⟩ = 0 ∧
    submit_async_req
      ⟨some ⟨1, []⟩, some ⟨5, 0⟩,
        [Worker.executing ⟨20, 10⟩, Worker.executing ⟨21, 11⟩, Worker.executing ⟨22, 12⟩,
         Worker.executing ⟨23, 13⟩, Worker.executing ⟨24, 14⟩]⟩ 5 15 ESP_OK 25 =
      some (ESP_FAIL,
        ⟨some ⟨1, []⟩, some ⟨5, 0⟩,
          [Worker.executing ⟨20, 10⟩, Worker.executing ⟨21, 11⟩, Worker.executing ⟨22, 12⟩,
           Worker.executing ⟨23, 13⟩, Worker.executing ⟨24, 14⟩]⟩,
        [Event.async_handler_begin 5 ESP_OK, Event.semaphoreTake false,
         Event.async_handler_complete 25]) :=
  ⟨by decide, by decide,
    ((bounded_concurrency MAX_ASYNC_REQUESTS
      ⟨some ⟨1, []⟩, some ⟨5, 0⟩,
        [Worker.executing ⟨20, 10⟩, Worker.executing ⟨21, 11⟩, Worker.executing ⟨22, 12⟩,
         Worker.executing ⟨23, 13⟩, Worker.executing ⟨24, 14⟩]⟩
      (by decide)
      ⟨true, true, fun _ => true,
        [Action.announce 0, Action.announce 1, Action.announce 2, Action.announce 3,
         Action.announce 4,
         Action.submit 0 10 ESP_OK 20, Action.receive 0,
         Action.submit 1 11 ESP_OK 21, Action.receive 1,
         Action.submit 2 12 ESP_OK 22, Action.receive 2,
         Action.submit 3 13 ESP_OK 23, Action.receive 3,
         Action.submit 4 14 ESP_OK 24, Action.receive 4], by decide⟩).2 (by decide)).1,
    by decide⟩

/-- C4. No double-admission. For every finite sequence of gate operations (the take
with block time 0 of `submit_async_req`, the give of `async_req_worker_task`) applied to
the gate that `start_async_req_workers` creates with pool size `N`, the count after each
operation is at least 0 and at most `N`; a take on count 0 fails and leaves the count at
0, and a give on count `N` leaves the count at `N`. -/
theorem gate_count_bounds (N : Nat) (a b : Bool) (c : Nat → Bool) (gate : Semaphore)
    (ops : List GateOp)
    (hgate : (start_async_req_workers N a b c).worker_ready_count = some gate) :
    (∀ g ∈ gateTrace gate ops, 0 ≤ g.uxCount ∧ g.uxCount ≤ N ∧ g.uxMaxCount = N) ∧
    (∀ g : Semaphore, g.uxCount = 0 →
      (xSemaphoreTake g).1 = false ∧ (xSemaphoreTake g).2.uxCount = 0) ∧
    (∀ g : Semaphore, g.uxMaxCount = N → g.uxCount = N →
      (xSemaphoreGive g).1 = false ∧ (xSemaphoreGive g).2.uxCount = N) := by
  have hg := start_gate N a b c gate hgate
  subst hg
  refine ⟨fun g hmem => ?_, fun g hz => ?_, fun g hmax hcount => ?_⟩
  · have := gateTrace_bounds ops ⟨N, 0⟩ (Nat.zero_le _) g hmem
    exact ⟨Nat.zero_le _, this.2, this.1⟩
  · simp [xSemaphoreTake, hz]
  · simp [xSemaphoreGive, hmax, hcount]

/-- Witness for C4: the gate of a pool of `MAX_ASYNC_REQUESTS` workers under the
sequence give, give, take, take, take. -/
theorem gate_count_bounds_witness :
    (start_async_req_workers MAX_ASYNC_REQUESTS true true (fun _ => true)).worker_ready_count
        = some ⟨5, 0⟩ ∧
    (gateTrace ⟨5, 0⟩ [GateOp.give, GateOp.give, GateOp.take, GateOp.take, GateOp.take]).map
        (fun g => g.uxCount) = [1, 2, 1, 0, 0] ∧
    ∀ g ∈ gateTrace ⟨5, 0⟩ [GateOp.give, GateOp.give, GateOp.take, GateOp.take, GateOp.take],
      0 ≤ g.uxCount ∧ g.uxCount ≤ MAX_ASYNC_REQUESTS ∧ g.uxMaxCount = MAX_ASYNC_REQUESTS :=
  ⟨by decide, by decide,
    (gate_count_bounds MAX_ASYNC_REQUESTS true true (fun _ => true) ⟨5, 0⟩
      [GateOp.give, GateOp.give, GateOp.take, GateOp.take, GateOp.take] (by decide)).1⟩

/-- C5, as the code has it. Right after `start_async_req_workers` has created the
admission gate, before any worker has made its first announcement, the gate's count
is 0; the pool size `N` is the gate's maximum count. -/
theorem gate_initial_count (N : Nat) (semAllocated queueAllocated : Bool)
    (created : Nat → Bool) (gate : Semaphore)
    (hgate : (start_async_req_workers N semAllocated queueAllocated created).worker_ready_count
      = some gate) :
    gate.uxCount = 0 ∧ gate.uxMaxCount = N ∧
    gateCount (start_async_req_workers N semAllocated queueAllocated created) = 0 := by
  have hg := start_gate N semAllocated queueAllocated created gate hgate
  subst hg
  refine ⟨rfl, rfl, ?_⟩
  simp [gateCount, hgate]

/-- Witness for C5: the gate of a pool of `MAX_ASYNC_REQUESTS` workers right after
its creation. -/
theorem gate_initial_count_witness :
    (start_async_req_workers MAX_ASYNC_REQUESTS true true (fun _ => true)).worker_ready_count
        = some ⟨5, 0⟩ ∧
    ((⟨5, 0⟩ : Semaphore).uxCount = 0 ∧ (⟨5, 0⟩ : Semaphore).uxMaxCount = MAX_ASYNC_REQUESTS ∧
      gateCount (start_async_req_workers MAX_ASYNC_REQUESTS true true (fun _ => true)) = 0) :=
  ⟨by decide,
    gate_initial_count MAX_ASYNC_REQUESTS true true (fun _ => true) ⟨5, 0⟩ (by decide)⟩

/-- C5, as stated, fails: with `MAX_ASYNC_REQUESTS = 5` the gate count right after
`start_async_req_workers` is 0, not 5. -/
theorem gate_initial_count_is_not_pool_size :
    gateCount (start_async_req_workers MAX_ASYNC_REQUESTS true true (fun _ => true)) = 0 ∧
    gateCount (start_async_req_workers MAX_ASYNC_REQUESTS true true (fun _ => true))
      ≠ MAX_ASYNC_REQUESTS := by
  decide

/-- C6 at the failing input. After `start_async_req_workers` failed to create the gate
or the queue, `worker_ready_count` is null and every worker slot is empty; a submit
whose lifetime extension succeeds then passes the null handle to `xSemaphoreTake` and
returns no status, while a submit whose lifetime extension fails returns that error. -/
theorem submit_after_failed_start (N : Nat) (queueAllocated : Bool) (created : Nat → Bool)
    (req handler copied : Nat) :
    (start_async_req_workers N false queueAllocated created).worker_ready_count = none ∧
    (start_async_req_workers N true false created).worker_ready_count = none ∧
    submit_async_req (start_async_req_workers N false queueAllocated created)
      req handler ESP_OK copied = none ∧
    submit_async_req (start_async_req_workers N true false created)
      req handler ESP_OK copied = none ∧
    submit_async_req (start_async_req_workers N true false created)
      req handler ESP_ERR_NO_MEM copied =
        some (ESP_ERR_NO_MEM, start_async_req_workers N true false created,
          [Event.async_handler_begin req ESP_ERR_NO_MEM]) := by
  refine ⟨?_, ?_, ?_, ?_, ?_⟩
  · simp [start_async_req_workers, xSemaphoreCreateCounting]
  · simp [start_async_req_workers, xSemaphoreCreateCounting, xQueueCreate]
  · apply submit_null_gate
    simp [start_async_req_workers, xSemaphoreCreateCounting]
  · apply submit_null_gate
    simp [start_async_req_workers, xSemaphoreCreateCounting, xQueueCreate]
  · exact submit_begin_failed _ req handler ESP_ERR_NO_MEM copied (by decide)

/-- C2. Release-on-rejection. For every call of `submit_async_req` that returns a
status other than `ESP_OK`: if `httpd_req_async_handler_begin` succeeded, the handle it
created is completed exactly once within the call (and the status is `ESP_FAIL`); if it
failed, the call returns its error code, makes no completion call and touches neither
the gate nor the queue; in both cases no handler is invoked, no send succeeds and the
queue is as it was before the call. -/
theorem release_on_rejection (s t : State) (req handler : Nat) (error : esp_err_t)
    (copied : Nat) (st : esp_err_t) (ev : List Event)
    (h : submit_async_req s req handler error copied = some (st, t, ev))
    (hrej : st ≠ ESP_OK) :
    (error = ESP_OK → completions ev = [copied] ∧ st = ESP_FAIL) ∧
    (error ≠ ESP_OK →
      st = error ∧ completions ev = [] ∧ t = s ∧
      ev = [Event.async_handler_begin req error]) ∧
    handlerCalls ev = [] ∧
    (∀ item : httpd_async_req_t, Event.queueSend item true ∉ ev) ∧
    t.async_req_queue = s.async_req_queue := by
  rcases submit_cases s t req handler error copied st ev h with
    ⟨herr, rfl, rfl, rfl⟩ | ⟨rfl, sem, hsem, hz, rfl, rfl, rfl⟩ |
    ⟨rfl, sem, q, hsem, hpos, hq, hfull, rfl, rfl, rfl⟩ |
    ⟨rfl, sem, q, hsem, hpos, hq, hroom, rfl, rfl, rfl⟩
  · exact ⟨fun h0 => absurd h0 herr, fun _ => ⟨rfl, by simp [completions], rfl, rfl⟩,
      by simp [handlerCalls], by simp, rfl⟩
  · exact ⟨fun _ => ⟨by simp [completions], rfl⟩, fun h0 => absurd rfl h0,
      by simp [handlerCalls], by simp, rfl⟩
  · exact ⟨fun _ => ⟨by simp [completions], rfl⟩, fun h0 => absurd rfl h0,
      by simp [handlerCalls], by simp, by simp [hq]⟩
  · exact absurd rfl hrej

/-- Witness for C2: a submit into a pool whose gate count is 0. -/
theorem release_on_rejection_witness :
    submit_async_req ⟨some ⟨1, []⟩, some ⟨5, 0⟩, List.replicate 5 Worker.announcing⟩
        7 8 ESP_OK 9 =
      some (ESP_FAIL, ⟨some ⟨1, []⟩, some ⟨5, 0⟩, List.replicate 5 Worker.announcing⟩,
        [Event.async_handler_begin 7 ESP_OK, Event.semaphoreTake false,
         Event.async_handler_complete 9]) ∧
    completions [Event.async_handler_begin 7 ESP_OK, Event.semaphoreTake false,
         Event.async_handler_complete 9] = [9] :=
  ⟨by decide,
    ((release_on_rejection ⟨some ⟨1, []⟩, some ⟨5, 0⟩, List.replicate 5 Worker.announcing⟩
      ⟨some ⟨1, []⟩, some ⟨5, 0⟩, List.replicate 5 Worker.announcing⟩ 7 8 ESP_OK 9 ESP_FAIL
      [Event.async_handler_begin 7 ESP_OK, Event.semaphoreTake false,
         Event.async_handler_complete 9] (by decide) (by decide)).1 rfl).1⟩

/-- C3. Exactly-once completion. In a reachable state, a `submit_async_req` call that
returns `ESP_OK` makes no completion call and no handler call itself and leaves exactly
one item, the copied handle with the handler, in `async_req_queue`; and for every item a
worker receives, whatever the handler and the completion call return, the rest of the
iteration of `async_req_worker_task` invokes that item's handler once on that item's
handle, then `httpd_req_async_handler_complete` once on the same handle, in that
order, makes no give meanwhile, and ends at the head of the loop, about to announce. -/
theorem exactly_once_completion (N : Nat) (s : State) (hs : Reachable N s) :
    (∀ (req handler : Nat) (error : esp_err_t) (copied : Nat) (t : State) (ev : List Event),
      submit_async_req s req handler error copied = some (ESP_OK, t, ev) →
        completions ev = [] ∧ handlerCalls ev = [] ∧
        t.async_req_queue = some ⟨1, [⟨copied, handler⟩]⟩) ∧
    (∀ (i : Nat) (t : State) (ev : List Event), worker_receive s i = some (t, ev) →
      ∃ item : httpd_async_req_t, ev = [Event.queueReceive item] ∧
        ∀ handlerRet completeRet : esp_err_t, ∃ (u : State) (ev2 : List Event),
          worker_run t i handlerRet completeRet = some (u, ev2) ∧
          handlerCalls ev2 = [(item.handler, item.req)] ∧
          completions ev2 = [item.req] ∧
          ev2.take 2 = [Event.handlerCall item.handler item.req,
                        Event.async_handler_complete item.req] ∧
          (∀ ok : Bool, Event.semaphoreGive ok ∉ ev2) ∧
          u.worker_handles[i]? = some Worker.announcing) := by
  have hinv := inv_of_reachable N s hs
  constructor
  · intro req handler error copied t ev h
    rcases submit_cases s t req handler error copied ESP_OK ev h with
      ⟨herr, hst, -, -⟩ | ⟨-, sem, -, -, hst, -, -⟩ |
      ⟨-, sem, q, -, -, -, -, hst, -, -⟩ |
      ⟨rfl, sem, q, hsem, hpos, hq, hroom, -, rfl, rfl⟩
    · exact absurd hst.symm herr
    · exact absurd hst (by decide)
    · exact absurd hst (by decide)
    · obtain ⟨-, hrest⟩ := hinv
      rw [hsem, hq] at hrest
      obtain ⟨-, h2, -, -⟩ := hrest
      have hnil : q.items = [] := by
        rw [h2] at hroom
        exact List.length_eq_zero.mp (by omega)
      simp [completions, handlerCalls, h2, hnil]
  · intro i t ev h
    obtain ⟨q, item, rest, hw, hq, hi, rfl, rfl⟩ := worker_receive_cases s t i ev h
    have hlt := lt_length_of_getElem? s.worker_handles i _ hw
    refine ⟨item, rfl, fun handlerRet completeRet => ?_⟩
    have hget : (s.worker_handles.set i (Worker.executing item))[i]? =
        some (Worker.executing item) := List.getElem?_set_self hlt
    refine ⟨_, _, (by simp only [worker_run, hget]; rfl), ?_, ?_, ?_, ?_, ?_⟩
    · by_cases hc : completeRet = ESP_OK <;> simp [handlerCalls, hc]
    · by_cases hc : completeRet = ESP_OK <;> simp [completions, hc]
    · simp
    · intro ok
      by_cases hc : completeRet = ESP_OK <;> simp [hc]
    · simp [hlt]

/-- Witness for C3: the idle pool of two accepts a submit, and a worker that
receives the queued item runs its handler and completes its handle. -/
theorem exactly_once_completion_witness :
    (submit_async_req (allIdle 2) 1 2 ESP_OK 3 =
        some (ESP_OK, ⟨some ⟨1, [⟨3, 2⟩]⟩, some ⟨2, 1⟩, [Worker.waiting, Worker.waiting]⟩,
          [Event.async_handler_begin 1 ESP_OK, Event.semaphoreTake true,
           Event.queueSend ⟨3, 2⟩ true]) ∧
      completions [Event.async_handler_begin 1 ESP_OK, Event.semaphoreTake true,
           Event.queueSend ⟨3, 2⟩ true] = []) ∧
    (worker_receive ⟨some ⟨1, [⟨3, 2⟩]⟩, some ⟨2, 1⟩, [Worker.waiting, Worker.waiting]⟩ 0 =
        some (⟨some ⟨1, []⟩, some ⟨2, 1⟩, [Worker.executing ⟨3, 2⟩, Worker.waiting]⟩,
          [Event.queueReceive ⟨3, 2⟩]) ∧
      worker_run ⟨some ⟨1, []⟩, some ⟨2, 1⟩, [Worker.executing ⟨3, 2⟩, Worker.waiting]⟩ 0
          ESP_FAIL ESP_FAIL =
        some (⟨some ⟨1, []⟩, some ⟨2, 1⟩, [Worker.announcing, Worker.waiting]⟩,
          [Event.handlerCall 2 3, Event.async_handler_complete 3,
           Event.logError "Failed to complete async request"])) :=
  ⟨⟨by decide,
    ((exactly_once_completion 2 (allIdle 2) (reachable_allIdle 2)).1 1 2 ESP_OK 3
      ⟨some ⟨1, [⟨3, 2⟩]⟩, some ⟨2, 1⟩, [Worker.waiting, Worker.waiting]⟩
      [Event.async_handler_begin 1 ESP_OK, Event.semaphoreTake true,
       Event.queueSend ⟨3, 2⟩ true] (by decide)).1⟩,
   by decide, by decide⟩

/-- C10, as the code has it. A `submit_async_req` call that fails at lifetime extension
or at the gate acquire leaves the gate count unchanged. A call that acquires a token and
then fails at `xQueueSend` returns `ESP_FAIL` with the gate count exactly one lower than
before the call and makes no give; after such a call in a reachable state the gate count
plus the items in the queue is strictly less than the number of workers that have
announced and are waiting, that is, the gate count plus the outstanding handoffs is
strictly less than the number of workers that are waiting or executing. -/
theorem rejected_submit_gate_effect (s t : State) (req handler : Nat) (error : esp_err_t)
    (copied : Nat) (st : esp_err_t) (ev : List Event)
    (h : submit_async_req s req handler error copied = some (st, t, ev)) :
    (error ≠ ESP_OK → gateCount t = gateCount s) ∧
    (Event.semaphoreTake false ∈ ev → gateCount t = gateCount s) ∧
    (Event.queueSend ⟨copied, handler⟩ false ∈ ev →
      st = ESP_FAIL ∧ gateCount t + 1 = gateCount s ∧
      (∀ ok : Bool, Event.semaphoreGive ok ∉ ev) ∧
      ∀ N : Nat, Reachable N s →
        gateCount t + numQueued t < numWaiting t ∧
        gateCount t + outstanding t < numWaiting t + numExecuting t) := by
  rcases submit_cases s t req handler error copied st ev h with
    ⟨herr, rfl, rfl, rfl⟩ | ⟨rfl, sem, hsem, hz, rfl, rfl, rfl⟩ |
    ⟨rfl, sem, q, hsem, hpos, hq, hfull, rfl, rfl, rfl⟩ |
    ⟨rfl, sem, q, hsem, hpos, hq, hroom, rfl, rfl, rfl⟩
  · exact ⟨fun _ => rfl, fun _ => rfl, fun hmem => by simp at hmem⟩
  · exact ⟨fun _ => rfl, fun _ => rfl, fun hmem => by simp at hmem⟩
  · refine ⟨fun h0 => absurd rfl h0, fun hmem => by simp at hmem, fun _ => ?_⟩
    refine ⟨rfl, by simp only [gateCount, hsem]; omega, fun ok => by simp, ?_⟩
    intro N hreach
    have hle := inv_gate_add_queued_le N s (inv_of_reachable N s hreach)
    simp only [gateCount, numQueued, hsem, hq, numWaiting, outstanding, numExecuting]
      at hle ⊢
    omega
  · exact ⟨fun h0 => absurd rfl h0, fun hmem => by simp at hmem, fun hmem => by simp at hmem⟩

/-- Witness for C10: a pool of five, all waiting, one item already queued; a second
submit takes a token and fails at `xQueueSend`. Afterwards the gate count is 3, one
item is queued and five workers wait. -/
theorem rejected_submit_gate_effect_witness :
    submit_async_req ⟨some ⟨1, [⟨20, 10⟩]⟩, some ⟨5, 4⟩, List.replicate 5 Worker.waiting⟩
        1 11 ESP_OK 21 =
      some (ESP_FAIL, ⟨some ⟨1, [⟨20, 10⟩]⟩, some ⟨5, 3⟩, List.replicate 5 Worker.waiting⟩,
        [Event.async_handler_begin 1 ESP_OK, Event.semaphoreTake true,
         Event.queueSend ⟨21, 11⟩ false, Event.async_handler_complete 21]) ∧
    gateCount (⟨some ⟨1, [⟨20, 10⟩]⟩, some ⟨5, 3⟩, List.replicate 5 Worker.waiting⟩ : State)
        + numQueued
          (⟨some ⟨1, [⟨20, 10⟩]⟩, some ⟨5, 3⟩, List.replicate 5 Worker.waiting⟩ : State) <
      numWaiting
        (⟨some ⟨1, [⟨20, 10⟩]⟩, some ⟨5, 3⟩, List.replicate 5 Worker.waiting⟩ : State) :=
  ⟨by decide,
    (((rejected_submit_gate_effect
      ⟨some ⟨1, [⟨20, 10⟩]⟩, some ⟨5, 4⟩, List.replicate 5 Worker.waiting⟩
      ⟨some ⟨1, [⟨20, 10⟩]⟩, some ⟨5, 3⟩, List.replicate 5 Worker.waiting⟩
      1 11 ESP_OK 21 ESP_FAIL
      [Event.async_handler_begin 1 ESP_OK, Event.semaphoreTake true,
       Event.queueSend ⟨21, 11⟩ false, Event.async_handler_complete 21]
      (by decide)).2.2 (by decide)).2.2.2 5
      ⟨true, true, fun _ => true,
        [Action.announce 0, Action.announce 1, Action.announce 2, Action.announce 3,
         Action.announce 4, Action.submit 0 10 ESP_OK 20], by decide⟩).1⟩

/-- C10, as stated, fails. With five workers: all announce, request A is accepted and
received by worker 0, request B is accepted and stays in the queue, request C takes a
token and fails at `xQueueSend`. Afterwards the gate count is 2, two handoffs are
outstanding (B queued, A executing) and four workers are waiting: 2 + 2 is not less
than 4. -/
theorem rejected_submit_count_not_below_waiting :
    exec (start_async_req_workers MAX_ASYNC_REQUESTS true true (fun _ => true))
        [Action.announce 0, Action.announce 1, Action.announce 2, Action.announce 3,
         Action.announce 4, Action.submit 0 10 ESP_OK 20, Action.receive 0,
         Action.submit 1 11 ESP_OK 21] =
      some ⟨some ⟨1, [⟨21, 11⟩]⟩, some ⟨5, 3⟩,
        [Worker.executing ⟨20, 10⟩, Worker.waiting, Worker.waiting, Worker.waiting,
         Worker.waiting]⟩ ∧
    submit_async_req
        ⟨some ⟨1, [⟨21, 11⟩]⟩, some ⟨5, 3⟩,
          [Worker.executing ⟨20, 10⟩, Worker.waiting, Worker.waiting, Worker.waiting,
           Worker.waiting]⟩ 2 12 ESP_OK 22 =
      some (ESP_FAIL,
        ⟨some ⟨1, [⟨21, 11⟩]⟩, some ⟨5, 2⟩,
          [Worker.executing ⟨20, 10⟩, Worker.waiting, Worker.waiting, Worker.waiting,
           Worker.waiting]⟩,
        [Event.async_handler_begin 2 ESP_OK, Event.semaphoreTake true,
         Event.queueSend ⟨22, 12⟩ false, Event.async_handler_complete 22]) ∧
    ¬ (gateCount
          (⟨some ⟨1, [⟨21, 11⟩]⟩, some ⟨5, 2⟩,
            [Worker.executing ⟨20, 10⟩, Worker.waiting, Worker.waiting, Worker.waiting,
             Worker.waiting]⟩ : State) +
        outstanding
          (⟨some ⟨1, [⟨21, 11⟩]⟩, some ⟨5, 2⟩,
            [Worker.executing ⟨20, 10⟩, Worker.waiting, Worker.waiting, Worker.waiting,
             Worker.waiting]⟩ : State) <
        numWaiting
          (⟨some ⟨1, [⟨21, 11⟩]⟩, some ⟨5, 2⟩,
            [Worker.executing ⟨20, 10⟩, Worker.waiting, Worker.waiting, Worker.waiting,
             Worker.waiting]⟩ : State)) := by
  refine ⟨by decide, by decide, by decide⟩

/-- C7. Fast path when idle, and the admission scenario. For every pool size `N ≥ 1`
and every worker `j < N`: the state with all `N` workers waiting, gate count `N` and the
queue empty is reachable; from it, with lifetime extension succeeding,
`submit_async_req` returns `ESP_OK`, lowers the gate count by exactly 1 and puts exactly
the submitted copied handle and handler in the queue; along the trace where each
accepted item is received before the next submit, the first `N` submits return `ESP_OK`,
the next one, with all `N` handlers running, returns `ESP_FAIL`, and after worker `j` has
finished its handler, completed the handle and announced again, the next submit returns
`ESP_OK`. -/
theorem admission_scenario (N j : Nat) (reqs : Nat → Nat × Nat × Nat)
    (handlerRet completeRet : esp_err_t) (hN : 1 ≤ N) (hj : j < N) :
    Reachable N (allIdle N) ∧ gateCount (allIdle N) = N ∧ numQueued (allIdle N) = 0 ∧
    numWaiting (allIdle N) = N ∧
    (∀ req handler copied : Nat,
      submit_async_req (allIdle N) req handler ESP_OK copied =
        some (ESP_OK,
          ⟨some ⟨1, [⟨copied, handler⟩]⟩, some ⟨N, N - 1⟩, List.replicate N Worker.waiting⟩,
          [Event.async_handler_begin req ESP_OK, Event.semaphoreTake true,
           Event.queueSend ⟨copied, handler⟩ true])) ∧
    (∃ s : State, admitRounds reqs N (allIdle N) = some (List.replicate N ESP_OK, s) ∧
      numExecuting s = N ∧ gateCount s = 0) ∧
    scenario N reqs j handlerRet completeRet =
      some (List.replicate N ESP_OK ++ [ESP_FAIL, ESP_OK]) := by
  refine ⟨reachable_allIdle N, by simp [gateCount, allIdle], by simp [numQueued, allIdle],
    ?_, ?_, ?_, ?_⟩
  · simp only [numWaiting, allIdle, List.countP_replicate]
    simp [Worker.isWaiting]
  · intro req handler copied
    rw [submit_accepted (allIdle N) req handler copied ⟨N, N⟩ ⟨1, []⟩ rfl
      (by simp only; omega) rfl (by simp)]
    simp [allIdle]
  · exact ⟨admitted N N reqs, admitRounds_allIdle N N reqs (le_refl _),
      (numExecuting_admitted N reqs).1, (numExecuting_admitted N reqs).2.2.1⟩
  · obtain ⟨ev1, ev2, ev3, ev4, s2, s3, s4, h1, h2, h3, h4⟩ :=
      scenario_tail N j reqs handlerRet completeRet hj
    simp only [scenario, admitRounds_allIdle N N reqs (le_refl _), h1, h2, h3, h4]

/-- Witness for C7: pool size 2; A and B are accepted, C is rejected as busy, and D
is accepted after worker 0 has finished A. -/
theorem admission_scenario_witness :
    scenario 2 (fun i => (i, 10 + i, 20 + i)) 0 ESP_OK ESP_OK =
      some [ESP_OK, ESP_OK, ESP_FAIL, ESP_OK] :=
  (admission_scenario 2 0 (fun i => (i, 10 + i, 20 + i)) ESP_OK ESP_OK
    (by decide) (by decide)).2.2.2.2.2.2

/-- C8. Uniform error envelope. For every integer `statusCode` and every `message`,
`sendJsonError` sets the status line to "400 Bad Request", "404 Not Found" or
"500 Internal Server Error" for the codes 400, 404 and 500 and to the decimal rendering
of `statusCode` alone for every other code, sets the content type to
`application/json`, sends the JSON object whose only fields are `error` = `message` and
`statusCode` = `statusCode`, and returns `ESP_FAIL`. -/
theorem sendJsonError_envelope (text : JsonText) (statusCode : Int) (message : String) :
    (sendJsonError text statusCode message).1 = ESP_FAIL ∧
    ∃ statusString : String,
      (sendJsonError text statusCode message).2 =
        [HttpCall.httpd_resp_set_status statusString,
         HttpCall.httpd_resp_set_type "application/json",
         HttpCall.httpd_resp_sendstr
           (text.ToString
             ⟨[("error", JsonValue.str message), ("statusCode", JsonValue.num statusCode)]⟩)] ∧
      (statusCode = 400 → statusString = "400 Bad Request") ∧
      (statusCode = 404 → statusString = "404 Not Found") ∧
      (statusCode = 500 → statusString = "500 Internal Server Error") ∧
      (statusCode ≠ 400 → statusCode ≠ 404 → statusCode ≠ 500 →
        statusString = toString statusCode) := by
  refine ⟨rfl, _, rfl, ?_, ?_, ?_, ?_⟩
  · intro h
    simp [h]
  · intro h
    simp [h]
  · intro h
    simp [h]
  · intro h1 h2 h3
    simp [h1, h2, h3]

theorem sendJsonError_other_codes (text : JsonText) (message : String) :
    (sendJsonError text 503 message).2.head? = some (HttpCall.httpd_resp_set_status "503") ∧
    (sendJsonError text (-7) message).2.head? = some (HttpCall.httpd_resp_set_status "-7") ∧
    (sendJsonError text 404 message).2.head? =
      some (HttpCall.httpd_resp_set_status "404 Not Found") := by
  refine ⟨?_, ?_, ?_⟩ <;> simp [sendJsonError] <;> decide

/-- Validation by `set_hostname_handler` of a request whose body buffer can be
allocated. The handler returns; it returns `ESP_OK`, calls `configSetHostName(h)`
exactly once and responds with the object `status` = "OK", `host_name` = `h` exactly
when the context and its `wifiManager` are present, `content_len > 0`, the body read
returns a positive length, the body parses to a non-empty object and that object holds
a string field `host_name` = `h`. In every other case it never calls
`configSetHostName`, returns `ESP_FAIL` and sends the error envelope, with status 500
when the context or the `wifiManager` is missing and status 400 otherwise; with both
present and `content_len = 0` the envelope is `error` = "Content-Length required",
`statusCode` = 400. -/
theorem set_hostname_validation (text : JsonText) (canResize : Nat → Bool)
    (req : httpd_req_t) (hres : canResize req.content_len = true) :
    (set_hostname_handler text canResize req).isSome = true ∧
    ∀ r : esp_err_t × List HttpCall, set_hostname_handler text canResize req = some r →
    (∀ h : String,
      (r.1 = ESP_OK ∧
        hostNameCalls r.2 = [h] ∧
        r.2 =
          [HttpCall.configSetHostName h,
           HttpCall.httpd_resp_set_type "application/json",
           HttpCall.httpd_resp_sendstr
             (text.ToString
               ⟨[("status", JsonValue.str "OK"), ("host_name", JsonValue.str h)]⟩)])
      ↔ hostnameAccepted text req h) ∧
    ((¬ ∃ h, hostnameAccepted text req h) →
      r.1 = ESP_FAIL ∧
      hostNameCalls r.2 = [] ∧
      (collaboratorMissing req → ∃ message : String,
        r.2 =
          [HttpCall.httpd_resp_set_status "500 Internal Server Error",
           HttpCall.httpd_resp_set_type "application/json",
           HttpCall.httpd_resp_sendstr
             (text.ToString
               ⟨[("error", JsonValue.str message), ("statusCode", JsonValue.num 500)]⟩)]) ∧
      (¬ collaboratorMissing req → ∃ message : String,
        r.2 =
          [HttpCall.httpd_resp_set_status "400 Bad Request",
           HttpCall.httpd_resp_set_type "application/json",
           HttpCall.httpd_resp_sendstr
             (text.ToString
               ⟨[("error", JsonValue.str message), ("statusCode", JsonValue.num 400)]⟩)])) ∧
    (¬ collaboratorMissing req → req.content_len = 0 →
      r =
        (ESP_FAIL,
          [HttpCall.httpd_resp_set_status "400 Bad Request",
           HttpCall.httpd_resp_set_type "application/json",
           HttpCall.httpd_resp_sendstr
             (text.ToString
               ⟨[("error", JsonValue.str "Content-Length required"),
                 ("statusCode", JsonValue.num 400)]⟩)])) := by
  have hne : ESP_FAIL ≠ ESP_OK := by decide
  cases hctx : req.user_ctx with
  | none =>
    refine ⟨by simp [set_hostname_handler, hctx], fun r hr => ?_⟩
    simp only [set_hostname_handler, hctx, Option.some.injEq] at hr
    subst hr
    simp [hctx, sendJsonError, hostnameAccepted, collaboratorMissing,
      hostNameCalls, JsonWrapper.AddItem, hne]
    exact ⟨_, rfl⟩
  | some ctx =>
    cases hwm : ctx.wifiManager with
    | none =>
      refine ⟨by simp [set_hostname_handler, hctx, hwm], fun r hr => ?_⟩
      simp only [set_hostname_handler, hctx, hwm, Option.some.injEq] at hr
      subst hr
      simp [hctx, hwm, sendJsonError, hostnameAccepted,
        collaboratorMissing, hostNameCalls, JsonWrapper.AddItem, hne]
      exact ⟨_, rfl⟩
    | some wm =>
      by_cases hlen : req.content_len = 0
      · refine ⟨by simp [set_hostname_handler, hctx, hwm, hlen], fun r hr => ?_⟩
        simp only [set_hostname_handler, hctx, hwm, hlen, if_true, Option.some.injEq] at hr
        subst hr
        simp [hctx, hwm, hlen, sendJsonError, hostnameAccepted,
          collaboratorMissing, hostNameCalls, JsonWrapper.AddItem, hne]
        exact ⟨_, rfl⟩
      · by_cases hret : req.recv_ret ≤ 0
        · refine ⟨by simp [set_hostname_handler, hctx, hwm, hlen, hres, hret],
            fun r hr => ?_⟩
          simp [set_hostname_handler, hctx, hwm, hlen, hres, hret] at hr
          subst hr
          simp [hctx, hwm, hlen, hret, sendJsonError, hostnameAccepted,
            collaboratorMissing, hostNameCalls, JsonWrapper.AddItem, hne]
          exact ⟨_, rfl⟩
        · cases hempty : (text.Parse req.recv_body).Empty with
          | true =>
            refine ⟨by simp [set_hostname_handler, hctx, hwm, hlen, hres, hret, hempty],
              fun r hr => ?_⟩
            simp [set_hostname_handler, hctx, hwm, hlen, hres, hret, hempty] at hr
            subst hr
            simp [hctx, hwm, hlen, hret, hempty, sendJsonError,
              hostnameAccepted, collaboratorMissing, hostNameCalls, JsonWrapper.AddItem, hne]
            exact ⟨_, rfl⟩
          | false =>
            cases hfield : (text.Parse req.recv_body).GetField "host_name" true with
            | none =>
              refine ⟨by simp [set_hostname_handler, hctx, hwm, hlen, hres, hret, hempty,
                hfield], fun r hr => ?_⟩
              simp [set_hostname_handler, hctx, hwm, hlen, hres, hret, hempty, hfield] at hr
              subst hr
              simp [hctx, hwm, hlen, hret, hempty, hfield,
                sendJsonError, hostnameAccepted, collaboratorMissing, hostNameCalls,
                JsonWrapper.AddItem, hne]
              exact ⟨_, rfl⟩
            | some name =>
              have hpos : 0 < req.content_len := Nat.pos_of_ne_zero hlen
              have hretpos : 0 < req.recv_ret := by omega
              refine ⟨by simp [set_hostname_handler, hctx, hwm, hlen, hres, hret, hempty,
                hfield], fun r hr => ?_⟩
              simp [set_hostname_handler, hctx, hwm, hlen, hres, hret, hempty, hfield] at hr
              subst hr
              simp [hctx, hwm, hlen, hret, hempty, hfield,
                hostnameAccepted, collaboratorMissing, hostNameCalls, JsonWrapper.AddItem,
                hpos, hretpos]

/-- A request accepted by `set_hostname_handler`: the body of the spec's scenario,
with a parser and a printer that know that body and its response only. -/
theorem set_hostname_validation_witness :
    set_hostname_handler
        ⟨fun body =>
          if body = "\x7b\"host_name\":\"device-42\"\x7d" then
            ⟨[("host_name", JsonValue.str "device-42")]⟩
          else ⟨[]⟩,
         fun json =>
          if json = ⟨[("status", JsonValue.str "OK"), ("host_name", JsonValue.str "device-42")]⟩
          then "\x7b\"status\":\"OK\",\"host_name\":\"device-42\"\x7d"
          else ""⟩
        (fun n => decide (n ≤ 1024))
        ⟨some ⟨some 1⟩, 25, 25, "\x7b\"host_name\":\"device-42\"\x7d"⟩ =
      some (ESP_OK,
        [HttpCall.configSetHostName "device-42",
         HttpCall.httpd_resp_set_type "application/json",
         HttpCall.httpd_resp_sendstr
           "\x7b\"status\":\"OK\",\"host_name\":\"device-42\"\x7d"]) ∧
    (set_hostname_handler
        ⟨fun body =>
          if body = "\x7b\"host_name\":\"device-42\"\x7d" then
            ⟨[("host_name", JsonValue.str "device-42")]⟩
          else ⟨[]⟩,
         fun json =>
          if json = ⟨[("status", JsonValue.str "OK"), ("host_name", JsonValue.str "device-42")]⟩
          then "\x7b\"status\":\"OK\",\"host_name\":\"device-42\"\x7d"
          else ""⟩
        (fun n => decide (n ≤ 1024))
        ⟨some ⟨some 1⟩, 25, 25, "\x7b\"host_name\":\"device-42\"\x7d"⟩).isSome = true :=
  ⟨by decide,
    (set_hostname_validation
      ⟨fun body =>
        if body = "\x7b\"host_name\":\"device-42\"\x7d" then
          ⟨[("host_name", JsonValue.str "device-42")]⟩
        else ⟨[]⟩,
       fun json =>
        if json = ⟨[("status", JsonValue.str "OK"), ("host_name", JsonValue.str "device-42")]⟩
        then "\x7b\"status\":\"OK\",\"host_name\":\"device-42\"\x7d"
        else ""⟩
      (fun n => decide (n ≤ 1024))
      ⟨some ⟨some 1⟩, 25, 25, "\x7b\"host_name\":\"device-42\"\x7d"⟩ (by decide)).1⟩

/-- C9 at the failing input. `set_hostname_handler` returns no status exactly when the
context and its `wifiManager` are present, `content_len` is not 0 and
`body.resize(content_len)` fails. In particular, whatever the largest length `limit`
the string can take, a request with the collaborators present and
`content_len = limit + 1` makes the handler stop in the resize, whatever
`httpd_req_recv` would deliver: no status is returned and no envelope is sent. -/
theorem set_hostname_oversized_body (text : JsonText) (canResize : Nat → Bool)
    (req : httpd_req_t) (limit wm : Nat) (ret : Int) (body : String) :
    (set_hostname_handler text canResize req = none ↔
      ((∃ ctx w, req.user_ctx = some ctx ∧ ctx.wifiManager = some w) ∧
        req.content_len ≠ 0 ∧ canResize req.content_len = false)) ∧
    set_hostname_handler text (fun n => decide (n ≤ limit))
      ⟨some ⟨some wm⟩, limit + 1, ret, body⟩ = none ∧
    set_hostname_handler text (fun n => decide (n ≤ 1073741823))
      ⟨some ⟨some wm⟩, 4000000000, ret, body⟩ = none := by
  refine ⟨?_, ?_, ?_⟩
  · cases hctx : req.user_ctx with
    | none => simp [set_hostname_handler, hctx]
    | some ctx =>
      cases hwm : ctx.wifiManager with
      | none => simp [set_hostname_handler, hctx, hwm]
      | some w =>
        by_cases hlen : req.content_len = 0
        · simp [set_hostname_handler, hctx, hwm, hlen]
        · cases hres : canResize req.content_len with
          | false => simp [set_hostname_handler, hctx, hwm, hlen, hres]
          | true =>
            simp only [set_hostname_handler, hctx, hwm, hlen, hres, if_false]
            by_cases hret : req.recv_ret ≤ 0
            · simp [hret]
            · cases hempty : (text.Parse req.recv_body).Empty with
              | true => simp [hret, hempty]
              | false =>
                cases hfield : (text.Parse req.recv_body).GetField "host_name" true with
                | none => simp [hret, hempty, hfield]
                | some name => simp [hret, hempty, hfield]
  · simp [set_hostname_handler]
  · simp [set_hostname_handler]

end WebServer
